import Mathlib

/-!
Shallow embedding of the `geographicus-zoomify-ripper` batch runner
(`src/run_dezoomify.js`) and of the retry logic of the upstream scraper
(`src/extract_zoomify.js`).

Conventions of the embedding:
* JavaScript strings are Lean `String`s; the JS `Set` objects built by
  `readLog` are modelled as `List String` with membership via `contains`.
* `String.prototype.replace(pattern, repl)` with a *string* pattern replaces
  only the first occurrence; `replaceFirst` below models that.
* The regex replace `/[^a-z0-9_\-]/gi` is a per-character map over the
  string (the class matches single characters and the `g` flag makes the
  substitution global), modelled with `List.map`.
* File-system side effects (append to a log file, rewrite the detailed
  failure JSON) are modelled as explicit state passing over `LogsState` /
  `RunnerState`.  A simple log file is modelled as the list of URLs
  appended to it (each physical line is `<timestamp> | <url>`; `readLog`
  recovers the URL part, so the URL list is the logical content).
* `path.join a b` is modelled as `a ++ "/" ++ b`; only equality of joined
  paths matters for the claims below.
-/

namespace ZoomifyRipper

/-- JS `s.replace(pat, repl)` with a string `pat`: replace the first
occurrence of `pat` (leftmost match) by `repl`; if `pat` does not occur,
return the string unchanged.  Char-list version. -/
def listReplaceFirst (pat repl : List Char) : List Char → List Char
  | [] => if pat.isPrefixOf ([] : List Char) then repl else []
  | c :: cs =>
    if pat.isPrefixOf (c :: cs) then repl ++ (c :: cs).drop pat.length
    else c :: listReplaceFirst pat repl cs

/-- JS `String.prototype.replace` with a plain-string pattern. -/
def replaceFirst (s pat repl : String) : String :=
  ⟨listReplaceFirst pat.data repl.data s.data⟩

/-- The character class `[a-z0-9_\-]` with the `i` flag: the characters the
sanitizer keeps unchanged. -/
def isAllowedChar (c : Char) : Bool :=
  ('a' ≤ c && c ≤ 'z') || ('A' ≤ c && c ≤ 'Z') || ('0' ≤ c && c ≤ '9')
    || c = '_' || c = '-'

/-- One step of the regex replace `/[^a-z0-9_\-]/gi → '_'`. -/
def sanitizeChar (c : Char) : Char :=
  if isAllowedChar c then c else '_'

namespace RunDezoomify

/-- The stripped URL head, `https://www.geographicus.com/mm5/graphics/00000001/zoomify/`. -/
def zoomifyBaseUrl : String :=
  "https://www.geographicus.com/mm5/graphics/00000001/zoomify/"

/-- The stripped URL tail, `/ImageProperties.xml`. -/
def imagePropsTail : String := "/ImageProperties.xml"

/-- The stripping phase of `sanitizeFilename`: the two `replace` calls. -/
def strippedBase (url : String) : String :=
  replaceFirst (replaceFirst url zoomifyBaseUrl "") imagePropsTail ""

/-- `sanitizeFilename` of `run_dezoomify.js`: strip the base-URL head and the
`/ImageProperties.xml` tail, then replace every character outside
`[a-zA-Z0-9_-]` with `_`. -/
def sanitizeFilename (url : String) : String :=
  ⟨(strippedBase url).data.map sanitizeChar⟩

/-- `workingDir` setting. -/
def workingDir : String := "C:/Users/Mai/Documents/zoomifyjs"

/-- `outputDir` setting (`path.join(workingDir, 'finished_zoomify_downloads')`). -/
def outputDir : String := workingDir ++ "/" ++ "finished_zoomify_downloads"

/-- `tempOutputPath` of `processUrl`: `path.join(workingDir, filename + '.jpg')`. -/
def tempOutputPath (url : String) : String :=
  workingDir ++ "/" ++ (sanitizeFilename url ++ ".jpg")

/-- `finalOutputPath` of `processUrl`: `path.join(outputDir, filename + '.jpg')`. -/
def finalOutputPath (url : String) : String :=
  outputDir ++ "/" ++ (sanitizeFilename url ++ ".jpg")

/-- The work queue `urls` computed at startup: keep a candidate URL unless it
was processed by both scripts or has already failed. -/
def urls (allUrls dezoomifySuccessSet extractSuccessSet failureSet : List String) :
    List String :=
  allUrls.filter fun url =>
    let processedByBoth :=
      dezoomifySuccessSet.contains url && extractSuccessSet.contains url
    let hasFailed := failureSet.contains url
    !processedByBoth && !hasFailed

/-- `endIndex = Math.min(startIndex + batchSize, urls.length)`. -/
def endIndex (queue : List String) (startIndex batchSize : Nat) : Nat :=
  min (startIndex + batchSize) queue.length

/-- The slice of the queue a run consumes: the items at indices
`[startIndex, endIndex)`, i.e. `(queue.drop startIndex).take batchSize`. -/
def batchSlice (queue : List String) (startIndex batchSize : Nat) : List String :=
  (queue.drop startIndex).take batchSize

/-- One entry of the detailed failure record
(`logs/dezoomify_failure_details.json`), keyed by URL. -/
structure FailureEntry where
  timestamp : String
  type : String
  error : String
  stderr : Option String
  attempts : Nat
  lastAttempt : String
deriving DecidableEq, Repr

/-- The detailed failure record: a JS object keyed by URL, modelled as an
association list in key-insertion order. -/
abbrev FailureRecord : Type := List (String × FailureEntry)

/-- `detailedFailures[url]` — JS property lookup. -/
def recordLookup : FailureRecord → String → Option FailureEntry
  | [], _ => none
  | (k, v) :: rest, url => if k == url then some v else recordLookup rest url

/-- `detailedFailures[url] = entry` — JS property assignment: overwrite in
place if the key exists, otherwise append the key at the end. -/
def recordSet (r : FailureRecord) (url : String) (e : FailureEntry) : FailureRecord :=
  match r with
  | [] => [(url, e)]
  | (k, v) :: rest =>
    if k == url then (k, e) :: rest else (k, v) :: recordSet rest url e

/-- The durable failure artifacts: the simple failure log
(`dezoomify_failure.txt`, modelled by its logical URL entries) and the
detailed failure record (`dezoomify_failure_details.json`). -/
structure LogsState where
  failureLog : List String
  detailedFailures : FailureRecord
deriving DecidableEq

/-- `logFailure(url, error, type)`: append `url` to the simple failure log
and create/update the detailed entry for `url`, with
`attempts = (detailedFailures[url]?.attempts || 0) + 1`. -/
def logFailure (ts url errMsg : String) (errStderr : Option String)
    (type : String) (st : LogsState) : LogsState :=
  let entry : FailureEntry :=
    { timestamp := ts
      type := type
      error := errMsg
      stderr := errStderr
      attempts := ((recordLookup st.detailedFailures url).map (·.attempts)).getD 0 + 1
      lastAttempt := ts }
  { failureLog := st.failureLog ++ [url]
    detailedFailures := recordSet st.detailedFailures url entry }

/-- `byType` aggregation of `saveProgress`: how many detailed-failure entries
carry the given `type`. -/
def byType (r : FailureRecord) (t : String) : Nat :=
  (r.filter fun p => p.2.type == t).length

/-- The runner's mutable state visible to one `processUrl` call: the durable
failure artifacts, the success log, the counters. -/
structure RunnerState where
  logs : LogsState
  successLog : List String
  successCount : Nat
  failCount : Nat
  activeDownloads : Nat
deriving DecidableEq

/-- The three ways one item's processing can end inside `processUrl`'s
`try`/`catch` blocks: `execAsync` and the `renameSync` both succeed, the
rename throws (`moveErr`), or `execAsync` throws (`error`). -/
inductive ItemOutcome where
  | success
  | moveFailure (errMsg : String)
  | downloadFailure (errMsg : String) (errStderr : Option String)
deriving DecidableEq, Repr

/-- `processUrl(url)` of `run_dezoomify.js`, as a state transformer over the
outcome of the external process and the file move.  Success appends to the
success log and bumps `successCount`; either failure kind calls `logFailure`
with its type and bumps `failCount`.  (The trailing `activeDownloads--` and
`saveProgress()` are modelled in the dispatcher, which owns the counter.) -/
def processUrl (ts url : String) (outcome : ItemOutcome) (st : RunnerState) :
    RunnerState :=
  match outcome with
  | .success =>
    { st with
      successLog := st.successLog ++ [url]
      successCount := st.successCount + 1 }
  | .moveFailure errMsg =>
    { st with
      logs := logFailure ts url errMsg none "move_failure" st.logs
      failCount := st.failCount + 1 }
  | .downloadFailure errMsg errStderr =>
    { st with
      logs := logFailure ts url errMsg errStderr "download_failure" st.logs
      failCount := st.failCount + 1 }

/-- The dispatch-loop handler `processUrl(url).catch(error => ...)` for an
exception escaping one item's processing: it prints to the console and
decrements `activeDownloads`, and touches no log file. -/
def catchUnexpected (st : RunnerState) : RunnerState :=
  { st with activeDownloads := st.activeDownloads - 1 }

end RunDezoomify

namespace ExtractZoomify

/-- `MAX_RETRIES` of `extract_zoomify.js`'s `processUrl`. -/
def MAX_RETRIES : Nat := 3

/-- Attempt counter for `extract_zoomify.js`'s `processUrl(page, url, stats,
retryCount)`: one attempt is made; on failure, if `retryCount < MAX_RETRIES`
the function calls itself with `retryCount + 1`, otherwise it records the
failure.  `succeeds k` tells whether the attempt with `retryCount = k`
succeeds.  Structural recursion on the remaining retries
`remaining = MAX_RETRIES - retryCount`, which the `retryCount < MAX_RETRIES`
guard decrements. -/
def attemptsAux (succeeds : Nat → Bool) (retryCount : Nat) : Nat → Nat
  | 0 => 1
  | n + 1 =>
    if succeeds retryCount then 1
    else 1 + attemptsAux succeeds (retryCount + 1) n

/-- Total number of attempts `processUrl` makes on one URL within a single
run, starting from `retryCount`. -/
def processUrlAttempts (succeeds : Nat → Bool) (retryCount : Nat) : Nat :=
  attemptsAux succeeds retryCount (MAX_RETRIES - retryCount)

end ExtractZoomify

namespace RunDezoomify

/-- The parameters of the `processUrls` dispatch loop: the CLI concurrency
limit and the slice bounds `[startIndex, endIndex)` over the queue. -/
structure DispatchConfig where
  maxConcurrent : Nat
  startIndex : Nat
  endIndex : Nat
deriving DecidableEq, Repr

/-- The dispatcher's observable state: the cursor `current`, the in-flight
counter `activeDownloads`, the indices started so far (in start order), and
how many started items have completed. -/
structure DispatchState where
  current : Nat
  activeDownloads : Nat
  started : List Nat
  finished : Nat
deriving DecidableEq, Repr

/-- The two events of the `processUrls` loop: `start` fires one iteration of
the inner `while (activeDownloads < maxConcurrent && current < endIndex)`
body (take `urls[current++]`, `activeDownloads++`, launch `processUrl`
without awaiting); `finish` is one launched item completing its lifecycle
(`activeDownloads--`).  Every queue entry is a non-empty string, so the
`if (url)` guard always holds. -/
inductive DispatchEvent where
  | start
  | finish
deriving DecidableEq, Repr

/-- One event of the dispatch loop, enabled exactly under the code's guards:
a `start` needs a free slot and an unconsumed index in the slice; a `finish`
needs an item in flight. -/
def dispatchStep (cfg : DispatchConfig) (s : DispatchState) :
    DispatchEvent → Option DispatchState
  | .start =>
    if s.activeDownloads < cfg.maxConcurrent ∧ s.current < cfg.endIndex then
      some { current := s.current + 1
             activeDownloads := s.activeDownloads + 1
             started := s.started ++ [s.current]
             finished := s.finished }
    else none
  | .finish =>
    if 0 < s.activeDownloads then
      some { s with
             activeDownloads := s.activeDownloads - 1
             finished := s.finished + 1 }
    else none

/-- Run a sequence of dispatch events; `none` if some event fires while its
guard is false. -/
def runTrace (cfg : DispatchConfig) (s : DispatchState) :
    List DispatchEvent → Option DispatchState
  | [] => some s
  | e :: es => (dispatchStep cfg s e).bind fun s1 => runTrace cfg s1 es

/-- The dispatcher's state when `processUrls` begins: cursor at `startIndex`,
nothing in flight, nothing started. -/
def initState (startIndex : Nat) : DispatchState :=
  { current := startIndex, activeDownloads := 0, started := [], finished := 0 }

/-- The inductive invariant of the dispatch loop. -/
def DispatchInv (cfg : DispatchConfig) (s : DispatchState) : Prop :=
  cfg.startIndex ≤ s.current ∧
  s.activeDownloads ≤ cfg.maxConcurrent ∧
  s.activeDownloads + s.finished + cfg.startIndex = s.current ∧
  s.started = List.range' cfg.startIndex (s.current - cfg.startIndex)

end RunDezoomify

/-! ## Helper lemmas -/

namespace RunDezoomify

/-- Bridge from the `Set.has` model (`List.contains`) to membership. -/
theorem contains_true_iff (l : List String) (a : String) :
    l.contains a = true ↔ a ∈ l := List.elem_iff

/-- Bridge from the `Set.has` model (`List.contains`) to non-membership. -/
theorem contains_false_iff (l : List String) (a : String) :
    l.contains a = false ↔ a ∉ l := by
  rw [← contains_true_iff]
  cases l.contains a <;> simp

/-- Membership characterization of the startup work queue. -/
theorem mem_urls (allUrls dz ex fail : List String) (u : String) :
    u ∈ urls allUrls dz ex fail ↔
      u ∈ allUrls ∧ ¬(u ∈ dz ∧ u ∈ ex) ∧ u ∉ fail := by
  simp only [urls, List.mem_filter, Bool.and_eq_true, Bool.not_eq_true',
    Bool.and_eq_false_iff, contains_true_iff, contains_false_iff]
  constructor
  · rintro ⟨h1, h2, h3⟩
    refine ⟨h1, ?_, h3⟩
    rintro ⟨ha, hb⟩
    rcases h2 with h2 | h2 <;> simp_all [contains_true_iff]
  · rintro ⟨h1, h2, h3⟩
    refine ⟨h1, ?_, h3⟩
    by_cases ha : u ∈ dz
    · exact Or.inr fun hb => h2 ⟨ha, hb⟩
    · exact Or.inl ha

theorem recordLookup_set_self (r : FailureRecord) (url : String) (e : FailureEntry) :
    recordLookup (recordSet r url e) url = some e := by
  induction r with
  | nil => simp [recordSet, recordLookup]
  | cons p rest ih =>
    obtain ⟨k, v⟩ := p
    by_cases hk : k = url
    · simp [recordSet, recordLookup, hk]
    · simpa [recordSet, recordLookup, hk] using ih

theorem recordLookup_set_ne (r : FailureRecord) (url u : String) (e : FailureEntry)
    (h : u ≠ url) :
    recordLookup (recordSet r url e) u = recordLookup r u := by
  induction r with
  | nil => simp [recordSet, recordLookup, Ne.symm h]
  | cons p rest ih =>
    obtain ⟨k, v⟩ := p
    by_cases hk : k = url
    · subst hk
      simp [recordSet, recordLookup, Ne.symm h]
    · by_cases hku : k = u
      · subst hku
        simp [recordSet, recordLookup, hk]
      · simpa [recordSet, recordLookup, hk, hku] using ih

theorem recordSet_of_lookup_none (r : FailureRecord) (url : String) (e : FailureEntry)
    (h : recordLookup r url = none) :
    recordSet r url e = r ++ [(url, e)] := by
  induction r with
  | nil => simp [recordSet]
  | cons p rest ih =>
    obtain ⟨k, v⟩ := p
    by_cases hk : k = url
    · simp [recordLookup, hk] at h
    · simp only [recordLookup, beq_iff_eq, hk, if_false, if_neg hk] at h
      simp [recordSet, hk, ih h]

theorem byType_append_single (r : FailureRecord) (url : String) (e : FailureEntry)
    (t : String) :
    byType (r ++ [(url, e)]) t = byType r t + (if e.type = t then 1 else 0) := by
  by_cases h : e.type = t <;> simp [byType, List.filter_append, h]

/-- The dispatch step preserves the loop invariant. -/
theorem dispatchStep_inv (cfg : DispatchConfig) (s s1 : DispatchState)
    (e : DispatchEvent) (hs : DispatchInv cfg s)
    (h : dispatchStep cfg s e = some s1) : DispatchInv cfg s1 := by
  obtain ⟨h1, h2, h3, h4⟩ := hs
  cases e with
  | start =>
    rw [dispatchStep] at h
    split at h
    · rename_i hcond
      obtain ⟨hc1, hc2⟩ := hcond
      injection h with h
      subst h
      refine ⟨?_, ?_, ?_, ?_⟩ <;> dsimp only
      · omega
      · omega
      · omega
      · rw [h4]
        have hcur : s.current + 1 - cfg.startIndex = s.current - cfg.startIndex + 1 := by
          omega
        rw [hcur, List.range'_1_concat]
        have hstart : cfg.startIndex + (s.current - cfg.startIndex) = s.current := by
          omega
        rw [hstart]
    · exact absurd h (by simp)
  | finish =>
    rw [dispatchStep] at h
    split at h
    · rename_i hcond
      injection h with h
      subst h
      refine ⟨?_, ?_, ?_, ?_⟩ <;> dsimp only
      · exact h1
      · omega
      · omega
      · exact h4
    · exact absurd h (by simp)

/-- The loop invariant holds along any valid event trace. -/
theorem runTrace_inv (cfg : DispatchConfig) (tr : List DispatchEvent) :
    ∀ s s1 : DispatchState, DispatchInv cfg s →
      runTrace cfg s tr = some s1 → DispatchInv cfg s1 := by
  induction tr with
  | nil =>
    intro s s1 hs h
    simp [runTrace] at h
    exact h ▸ hs
  | cons e es ih =>
    intro s s1 hs h
    simp only [runTrace, Option.bind_eq_bind] at h
    obtain ⟨smid, hmid, hrest⟩ := Option.bind_eq_some.mp h
    exact ih smid s1 (dispatchStep_inv cfg s smid e hs hmid) hrest

/-- The initial dispatcher state satisfies the loop invariant. -/
theorem initState_inv (cfg : DispatchConfig) :
    DispatchInv cfg (initState cfg.startIndex) := by
  refine ⟨Nat.le_refl _, Nat.zero_le _, by simp [initState], by simp [initState]⟩

/-- Characters the sanitizer keeps are left unchanged by the per-character map. -/
theorem map_sanitizeChar_id (l : List Char)
    (h : ∀ c ∈ l, isAllowedChar c = true) : l.map sanitizeChar = l := by
  induction l with
  | nil => rfl
  | cons c cs ih =>
    have hc : isAllowedChar c = true := h c (by simp)
    simp [sanitizeChar, hc, ih fun d hd => h d (by simp [hd])]

end RunDezoomify

/-! ## Claim theorems -/

open RunDezoomify ExtractZoomify

/-- C1: the work queue computed at startup by `run_dezoomify` is the ordered
subsequence of the candidate URLs (order preserved by `filter`) containing
exactly those URLs that are not in the failure set and not in the
intersection of the two success sets; a URL present in only one of the two
success logs remains in the queue. -/
theorem work_queue_spec (allUrls dz ex fail : List String) :
    List.Sublist (urls allUrls dz ex fail) allUrls ∧
    (∀ u, u ∈ urls allUrls dz ex fail ↔
        u ∈ allUrls ∧ u ∉ fail ∧ ¬(u ∈ dz ∧ u ∈ ex)) ∧
    (∀ u, u ∈ allUrls → u ∉ fail →
        ((u ∈ dz ∧ u ∉ ex) ∨ (u ∉ dz ∧ u ∈ ex)) →
        u ∈ urls allUrls dz ex fail) := by
  refine ⟨List.filter_sublist _, fun u => ?_, fun u hu hf hone => ?_⟩
  · rw [mem_urls]
    tauto
  · refine (mem_urls allUrls dz ex fail u).mpr ⟨hu, ?_, hf⟩
    rintro ⟨hx, hy⟩
    rcases hone with ⟨ha, hb⟩ | ⟨ha, hb⟩
    · exact hb hy
    · exact ha hx

/-- C1 witness: a URL present in only the downloader's success log remains
in the queue. -/
theorem work_queue_spec_witness : "A" ∈ urls ["A", "B"] ["A"] [] [] :=
  (work_queue_spec ["A", "B"] ["A"] [] []).2.2 "A" (by decide) (by decide)
    (Or.inl ⟨by decide, by decide⟩)

/-- C2 counterexample: with candidate list `[A, B, C]`, the downloader's own
success log `{A}`, the upstream validator's success log empty, and an empty
failure log, the computed queue is `[A, B, C]`, not `[B, C]`: presence in
the downloader's own success log alone does not remove a URL from the
queue. -/
theorem single_success_log_counterexample :
    urls ["A", "B", "C"] ["A"] [] [] = ["A", "B", "C"] ∧
    urls ["A", "B", "C"] ["A"] [] [] ≠ ["B", "C"] ∧
    "A" ∈ urls ["A", "B", "C"] ["A"] [] [] := by decide

/-- C2 (amended): for every URL in both the downloader's success log and the
upstream validator's success log, the URL is absent from the work queue of a
subsequent run; in particular, for candidate list `[A, B, C]`, both success
logs `{A}`, and empty failure log, the computed work queue equals
`[B, C]`. -/
theorem skip_requires_both_logs (allUrls dz ex fail : List String) (u : String)
    (hdz : u ∈ dz) (hex : u ∈ ex) :
    u ∉ urls allUrls dz ex fail ∧
    urls ["A", "B", "C"] ["A"] ["A"] [] = ["B", "C"] := by
  refine ⟨fun hu => ?_, by decide⟩
  exact ((mem_urls allUrls dz ex fail u).mp hu).2.1 ⟨hdz, hex⟩

/-- C2 witness: a URL in both success logs is skipped. -/
theorem skip_requires_both_logs_witness :
    "A" ∉ urls ["A", "B", "C"] ["A"] ["A"] [] ∧
    urls ["A", "B", "C"] ["A"] ["A"] [] = ["B", "C"] :=
  skip_requires_both_logs ["A", "B", "C"] ["A"] ["A"] [] "A" (by decide) (by decide)

/-- C3: along every valid trace of the dispatch loop, the number of items in
flight never exceeds `maxConcurrent` (every prefix of a valid trace is a
valid trace, so this bounds every intermediate state); items are started in
slice order (the started indices are exactly
`startIndex, startIndex+1, ...`); and with `maxConcurrent = 2`, once a third
item has started, at least one of the earlier items has completed. -/
theorem dispatch_concurrency_bound (cfg : DispatchConfig) (tr : List DispatchEvent)
    (s1 : DispatchState)
    (h : runTrace cfg (initState cfg.startIndex) tr = some s1) :
    s1.activeDownloads ≤ cfg.maxConcurrent ∧
    s1.started = List.range' cfg.startIndex (s1.current - cfg.startIndex) ∧
    (cfg.maxConcurrent = 2 → cfg.startIndex + 3 ≤ s1.current → 1 ≤ s1.finished) := by
  obtain ⟨h1, h2, h3, h4⟩ := runTrace_inv cfg tr _ s1 (initState_inv cfg) h
  exact ⟨h2, h4, fun hm hc => by omega⟩

/-- C3 witness: `maxConcurrent = 2`, three queued items, trace
start-start-finish-start. -/
theorem dispatch_concurrency_bound_witness :
    (2 : Nat) ≤ 2 ∧ ([0, 1, 2] : List Nat) = List.range' 0 3 ∧
    ((2 : Nat) = 2 → 0 + 3 ≤ 3 → 1 ≤ 1) :=
  dispatch_concurrency_bound ⟨2, 0, 3⟩ [.start, .start, .finish, .start]
    ⟨3, 2, [0, 1, 2], 1⟩ (by decide)

/-- C4 counterexample: an `unexpected_error` (an exception escaping one
item's processing, handled by the dispatch loop's `.catch`) leaves both the
simple failure log and the detailed failure record unchanged — here an
initially empty state stays empty — so this failure kind is recorded in
neither durable artifact. -/
theorem unexpected_error_unrecorded :
    (catchUnexpected ⟨⟨[], []⟩, [], 0, 0, 1⟩).logs.failureLog = [] ∧
    (catchUnexpected ⟨⟨[], []⟩, [], 0, 0, 1⟩).logs.detailedFailures = [] ∧
    (catchUnexpected ⟨⟨[], []⟩, [], 0, 0, 1⟩).activeDownloads = 0 := by decide

/-- C4 (amended): a `download_failure` or `move_failure` outcome is recorded
in both durable places (the simple failure log and the detailed failure
record, with the matching type) before the batch continues; an
`unexpected_error` is caught at the dispatch loop, which only reports it to
the console and decrements the in-flight counter, leaving both durable
artifacts unchanged. -/
theorem failure_recording_by_kind (ts url errMsg : String) (errStderr : Option String)
    (st : RunnerState) :
    ((processUrl ts url (.moveFailure errMsg) st).logs.failureLog
        = st.logs.failureLog ++ [url] ∧
      (recordLookup (processUrl ts url (.moveFailure errMsg) st).logs.detailedFailures
          url).map FailureEntry.type = some "move_failure") ∧
    ((processUrl ts url (.downloadFailure errMsg errStderr) st).logs.failureLog
        = st.logs.failureLog ++ [url] ∧
      (recordLookup (processUrl ts url
          (.downloadFailure errMsg errStderr) st).logs.detailedFailures
          url).map FailureEntry.type = some "download_failure") ∧
    (catchUnexpected st).logs = st.logs := by
  refine ⟨⟨rfl, ?_⟩, ⟨rfl, ?_⟩, rfl⟩
  · simp [processUrl, logFailure, recordLookup_set_self]
  · simp [processUrl, logFailure, recordLookup_set_self]

/-- C5 counterexample: in `extract_zoomify.js`, a URL whose every attempt
fails is attempted `1 + MAX_RETRIES = 4` times within a single run — the
failed item is automatically retried during the run, so a work item can be
attempted more than once per run. -/
theorem extract_retries_counterexample :
    processUrlAttempts (fun _ => false) 0 = 4 ∧
    1 < processUrlAttempts (fun _ => false) 0 := by decide

/-- C5 (amended): in `run_dezoomify.js` no queue index is dispatched more
than once within a run (the started indices of any valid dispatch trace are
distinct, and `processUrl` makes a single attempt with no retry), a failed
URL becoming eligible again only in a later invocation once the failure log
is cleared; in `extract_zoomify.js`, by contrast, a failing URL is
automatically retried up to `MAX_RETRIES = 3` further times within the same
run (at most `1 + MAX_RETRIES` attempts) before its failure is recorded. -/
theorem no_retry_within_run (cfg : DispatchConfig) (tr : List DispatchEvent)
    (s1 : DispatchState)
    (h : runTrace cfg (initState cfg.startIndex) tr = some s1) :
    s1.started.Nodup ∧
    ∀ succeeds : Nat → Bool, processUrlAttempts succeeds 0 ≤ 1 + MAX_RETRIES := by
  constructor
  · obtain ⟨-, -, -, h4⟩ := runTrace_inv cfg tr _ s1 (initState_inv cfg) h
    rw [h4]
    exact List.nodup_range' _ _
  · intro succeeds
    have haux : ∀ n r, attemptsAux succeeds r n ≤ 1 + n := by
      intro n
      induction n with
      | zero => intro r; simp [attemptsAux]
      | succ m ih =>
        intro r
        rw [attemptsAux]
        split
        · omega
        · have := ih (r + 1)
          omega
    simpa [processUrlAttempts] using haux (MAX_RETRIES - 0) 0

/-- C5 witness: a concrete dispatch trace has distinct started indices, and
an always-failing URL stays within the attempt bound. -/
theorem no_retry_within_run_witness :
    ([0, 1] : List Nat).Nodup ∧
    (∀ succeeds : Nat → Bool, processUrlAttempts succeeds 0 ≤ 1 + MAX_RETRIES) :=
  no_retry_within_run ⟨1, 0, 2⟩ [.start, .finish, .start] ⟨2, 1, [0, 1], 1⟩ (by decide)

/-- C6: the output-filename derivation is a deterministic pure function of
the URL: after the two stripping `replace` calls, the sanitizer is exactly
the per-character map replacing every character outside `[A-Za-z0-9_-]` with
an underscore, every character of its output lies in that class, and an
input already inside the class is left unchanged. -/
theorem sanitize_deterministic_map (url : String) :
    (sanitizeFilename url).data = (strippedBase url).data.map sanitizeChar ∧
    (∀ c ∈ (sanitizeFilename url).data, isAllowedChar c = true) ∧
    ((∀ c ∈ (strippedBase url).data, isAllowedChar c = true) →
      sanitizeFilename url = strippedBase url) := by
  refine ⟨rfl, ?_, ?_⟩
  · intro c hc
    simp only [sanitizeFilename, List.mem_map] at hc
    obtain ⟨a, -, ha⟩ := hc
    rw [← ha]
    unfold sanitizeChar
    split
    · rename_i hall
      exact hall
    · decide
  · intro hall
    show sanitizeFilename url = strippedBase url
    unfold sanitizeFilename
    rw [map_sanitizeChar_id _ hall]

/-- C6 witness: sanitizing a full catalogue URL, an underscore output
character is in the allowed class, and an already-clean name is fixed. -/
theorem sanitize_deterministic_map_witness :
    isAllowedChar '_' = true ∧ sanitizeFilename "Map-1" = strippedBase "Map-1" :=
  ⟨(sanitize_deterministic_map "a.b").2.1 '_' (by decide),
    (sanitize_deterministic_map "Map-1").2.2 (by decide)⟩

/-- C7: when the external process succeeds but the file move fails, the item
is classified `move_failure`: the URL is appended to the simple failure log,
the detailed record gains an entry of type `move_failure`, the failure
counter is incremented, and in the `byType` aggregation the item is counted
under `move_failure`, leaving the `download_failure` count unchanged
(stated for a URL with no previous detailed-failure entry). -/
theorem move_failure_accounting (ts url errMsg : String) (st : RunnerState)
    (h : recordLookup st.logs.detailedFailures url = none) :
    (processUrl ts url (.moveFailure errMsg) st).failCount = st.failCount + 1 ∧
    (processUrl ts url (.moveFailure errMsg) st).logs.failureLog
      = st.logs.failureLog ++ [url] ∧
    (recordLookup (processUrl ts url (.moveFailure errMsg) st).logs.detailedFailures
        url).map FailureEntry.type = some "move_failure" ∧
    byType (processUrl ts url (.moveFailure errMsg) st).logs.detailedFailures
        "move_failure"
      = byType st.logs.detailedFailures "move_failure" + 1 ∧
    byType (processUrl ts url (.moveFailure errMsg) st).logs.detailedFailures
        "download_failure"
      = byType st.logs.detailedFailures "download_failure" := by
  refine ⟨rfl, rfl, ?_, ?_, ?_⟩
  · simp [processUrl, logFailure, recordLookup_set_self]
  · simp [processUrl, logFailure, recordSet_of_lookup_none _ _ _ h, byType_append_single]
  · simp [processUrl, logFailure, recordSet_of_lookup_none _ _ _ h, byType_append_single]

/-- C7 witness: a move failure on a fresh URL from an empty state. -/
theorem move_failure_accounting_witness :
    (processUrl "t" "u" (.moveFailure "boom") ⟨⟨[], []⟩, [], 0, 0, 1⟩).failCount = 1 ∧
    (processUrl "t" "u" (.moveFailure "boom")
        ⟨⟨[], []⟩, [], 0, 0, 1⟩).logs.failureLog = ["u"] ∧
    (recordLookup (processUrl "t" "u" (.moveFailure "boom")
        ⟨⟨[], []⟩, [], 0, 0, 1⟩).logs.detailedFailures "u").map FailureEntry.type
      = some "move_failure" ∧
    byType (processUrl "t" "u" (.moveFailure "boom")
        ⟨⟨[], []⟩, [], 0, 0, 1⟩).logs.detailedFailures "move_failure" = 1 ∧
    byType (processUrl "t" "u" (.moveFailure "boom")
        ⟨⟨[], []⟩, [], 0, 0, 1⟩).logs.detailedFailures "download_failure" = 0 :=
  move_failure_accounting "t" "u" "boom" ⟨⟨[], []⟩, [], 0, 0, 1⟩ (by decide)

/-- C8: in the detailed failure record, `logFailure` sets the failing URL's
`attempts` to its previous value plus one (so it is created at `1` on the
first recorded failure), updating the entry in place and leaving every other
URL's entry unchanged. -/
theorem attempts_increment (ts url errMsg : String) (errStderr : Option String)
    (ty : String) (st : LogsState) :
    ((recordLookup (logFailure ts url errMsg errStderr ty st).detailedFailures
        url).map FailureEntry.attempts
      = some (((recordLookup st.detailedFailures url).map
          FailureEntry.attempts).getD 0 + 1)) ∧
    (recordLookup st.detailedFailures url = none →
      (recordLookup (logFailure ts url errMsg errStderr ty st).detailedFailures
          url).map FailureEntry.attempts = some 1) ∧
    (∀ u, u ≠ url →
      recordLookup (logFailure ts url errMsg errStderr ty st).detailedFailures u
        = recordLookup st.detailedFailures u) := by
  refine ⟨?_, ?_, ?_⟩
  · simp [logFailure, recordLookup_set_self]
  · intro h
    simp [logFailure, recordLookup_set_self, h]
  · intro u hu
    simp [logFailure, recordLookup_set_ne _ _ _ _ hu]

/-- C8 witness: a second failure of the same URL bumps `attempts` from 1 to
2 and leaves an unrelated URL's (absent) entry absent. -/
theorem attempts_increment_witness :
    ((recordLookup (logFailure "t2" "u" "e" none "download_failure"
        ⟨["u"], [("u", ⟨"t1", "download_failure", "e", none, 1, "t1"⟩)]⟩).detailedFailures
        "u").map FailureEntry.attempts = some 2) ∧
    recordLookup (logFailure "t2" "u" "e" none "download_failure"
        ⟨["u"], [("u", ⟨"t1", "download_failure", "e", none, 1, "t1"⟩)]⟩).detailedFailures
        "v" = none := by
  refine ⟨(attempts_increment "t2" "u" "e" none "download_failure"
    ⟨["u"], [("u", ⟨"t1", "download_failure", "e", none, 1, "t1"⟩)]⟩).1, ?_⟩
  exact ((attempts_increment "t2" "u" "e" none "download_failure"
    ⟨["u"], [("u", ⟨"t1", "download_failure", "e", none, 1, "t1"⟩)]⟩).2.2 "v"
      (by decide)).trans (by decide)

/-- C9: two consecutive batches compose exactly — running a batch of size
`b` from `startIndex` and then a second run from the reported next index
`endIndex queue startIndex b` with size `b2` processes together precisely
the items of a single run of size `b + b2` from `startIndex` (no item
skipped, none duplicated); a single unbatched run from index 0 over the
whole queue processes exactly the queue. -/
theorem batch_resume_exact_slice (queue : List String) (s b b2 : Nat) :
    batchSlice queue s b ++ batchSlice queue (endIndex queue s b) b2
      = batchSlice queue s (b + b2) ∧
    batchSlice queue 0 queue.length = queue := by
  constructor
  · unfold batchSlice endIndex
    rcases le_or_lt (s + b) queue.length with hle | hlt
    · rw [min_eq_left hle, ← List.drop_drop, List.take_add]
    · rw [min_eq_right (le_of_lt hlt), List.drop_length, List.take_nil,
        List.append_nil]
      have hlen : (queue.drop s).length ≤ b := by
        rw [List.length_drop]
        omega
      rw [List.take_of_length_le hlen, List.take_of_length_le (hlen.trans (by omega))]
  · unfold batchSlice
    simp

/-- C10: the filename sanitization is not injective — two distinct catalogue
URLs differing only in a character outside `[A-Za-z0-9_-]` map to the same
sanitized filename, hence to the same temporary and final output paths. -/
theorem sanitize_not_injective :
    (zoomifyBaseUrl ++ "Map A/ImageProperties.xml")
        ≠ (zoomifyBaseUrl ++ "Map.A/ImageProperties.xml") ∧
    sanitizeFilename (zoomifyBaseUrl ++ "Map A/ImageProperties.xml")
      = sanitizeFilename (zoomifyBaseUrl ++ "Map.A/ImageProperties.xml") ∧
    tempOutputPath (zoomifyBaseUrl ++ "Map A/ImageProperties.xml")
      = tempOutputPath (zoomifyBaseUrl ++ "Map.A/ImageProperties.xml") ∧
    finalOutputPath (zoomifyBaseUrl ++ "Map A/ImageProperties.xml")
      = finalOutputPath (zoomifyBaseUrl ++ "Map.A/ImageProperties.xml") := by
  refine ⟨by decide, by decide, by decide, by decide⟩

end ZoomifyRipper
